import Mathlib

/-!
Verification of the wall-with-window partitioning algorithm of
`makeHouse.js` (procedural room geometry: floor, ceiling, four walls,
two of them with a rectangular window simulated by segment omission).

The embedding models lengths as rationals; every numeric constant of the
source (0.2, 0.05, 0.001, 0.02, 0.15, 0.12, 0.08, 0.04) appears as the
corresponding rational literal.  Boxes carry their size, their position
relative to the owning group's center, the material tag and the two
shadow flags, exactly as the source sets them.
-/

namespace SolarSim

/-- A 3D vector of rational coordinates (stands for THREE.Vector3). -/
structure Vec3 where
  x : ℚ
  y : ℚ
  z : ℚ
deriving DecidableEq

/-- Material tag: the source passes four caller-supplied materials, opaque
to the geometry; we keep only which of the four a box references. -/
inductive Mat
  | wallMat
  | floorMat
  | ceilMat
  | glassMat
deriving DecidableEq

/-- Role tag of a produced primitive inside a windowed wall. -/
inductive Role
  | lower
  | upper
  | left
  | right
  | pane
deriving DecidableEq

/-- A box mesh: size, position (relative to the owning group), material,
shadow flags.  `makeBox` in the source sets both shadow flags to true. -/
structure Box where
  sx : ℚ
  sy : ℚ
  sz : ℚ
  pos : Vec3
  mat : Mat
  castShadow : Bool
  receiveShadow : Bool
deriving DecidableEq

/-- `makeBox` of the source: a box at the origin with both shadow flags on. -/
def makeBox (sx sy sz : ℚ) (mat : Mat) : Box :=
  { sx := sx, sy := sy, sz := sz, pos := ⟨0, 0, 0⟩, mat := mat,
    castShadow := true, receiveShadow := true }

/-- Long-axis direction of a wall: "x" (south/north walls) or "z" (east/west). -/
inductive Axis
  | x
  | z
deriving DecidableEq

/-- A window request: width, height, sill height (before clamping). -/
structure WindowSpec where
  w : ℚ
  h : ℚ
  sill : ℚ
deriving DecidableEq

/-- The clamping step of `buildWallWithWindow` (source lines 59-61):
`winW = min(winW, L - 0.2)`, `winH = min(winH, H - 0.2)`,
`sill = max(0, min(sill, H - winH - 0.05))` with `winH` already clamped. -/
def clampWindow (L H : ℚ) (s : WindowSpec) : WindowSpec :=
  { w := min s.w (L - 1/5)
    h := min s.h (H - 1/5)
    sill := max 0 (min s.sill (H - min s.h (H - 1/5) - 1/20)) }

/-- The argument record of `buildWallWithWindow`. -/
structure WallArgs where
  axis : Axis
  L : ℚ
  H : ℚ
  T : ℚ
  center : Vec3
  winW : ℚ
  winH : ℚ
  sill : ℚ
  offsetAlong : ℚ
  outwardNormal : Vec3
deriving DecidableEq

/-- Clamped window of a wall call (the reassigned `winW`/`winH`/`sill`). -/
def wclamp (a : WallArgs) : WindowSpec :=
  clampWindow a.L a.H ⟨a.winW, a.winH, a.sill⟩

/-- Clamped window width `winW` after line 59. -/
def winW' (a : WallArgs) : ℚ := (wclamp a).w

/-- Clamped window height `winH` after line 60. -/
def winH' (a : WallArgs) : ℚ := (wclamp a).h

/-- Clamped sill `sill` after line 61. -/
def sill' (a : WallArgs) : ℚ := (wclamp a).sill

/-- `yBottom = -H / 2`. -/
def yBottom (a : WallArgs) : ℚ := -a.H / 2

/-- `yTop = H / 2`. -/
def yTop (a : WallArgs) : ℚ := a.H / 2

/-- `yWinBottom = yBottom + sill`. -/
def yWinBottom (a : WallArgs) : ℚ := yBottom a + sill' a

/-- `yWinTop = yWinBottom + winH`. -/
def yWinTop (a : WallArgs) : ℚ := yWinBottom a + winH' a

/-- `halfL = L / 2`. -/
def halfL (a : WallArgs) : ℚ := a.L / 2

/-- `winCenter = offsetAlong` (the along-axis offset is used unclamped). -/
def winCenter (a : WallArgs) : ℚ := a.offsetAlong

/-- `winLeft = winCenter - winW / 2`. -/
def winLeft (a : WallArgs) : ℚ := winCenter a - winW' a / 2

/-- `winRight = winCenter + winW / 2`. -/
def winRight (a : WallArgs) : ℚ := winCenter a + winW' a / 2

/-- `lowerH = yWinBottom - yBottom`. -/
def lowerH (a : WallArgs) : ℚ := yWinBottom a - yBottom a

/-- `upperH = yTop - yWinTop`. -/
def upperH (a : WallArgs) : ℚ := yTop a - yWinTop a

/-- `leftW = winLeft + halfL`. -/
def leftW (a : WallArgs) : ℚ := winLeft a + halfL a

/-- `rightW = halfL - winRight`. -/
def rightW (a : WallArgs) : ℚ := halfL a - winRight a

/-- The box below the window (source lines 82-91). -/
def lowerBox (a : WallArgs) : Box :=
  { makeBox (if a.axis = Axis.x then a.L else a.T) (lowerH a)
      (if a.axis = Axis.x then a.T else a.L) Mat.wallMat with
    pos := ⟨0, yBottom a + lowerH a / 2, 0⟩ }

/-- The box above the window (source lines 94-105; the net `position.y`
after line 103 is `yWinTop + upperH / 2`). -/
def upperBox (a : WallArgs) : Box :=
  { makeBox (if a.axis = Axis.x then a.L else a.T) (upperH a)
      (if a.axis = Axis.x then a.T else a.L) Mat.wallMat with
    pos := ⟨0, yWinTop a + upperH a / 2, 0⟩ }

/-- The box left of the window (source lines 108-121). -/
def leftBox (a : WallArgs) : Box :=
  { makeBox (if a.axis = Axis.x then leftW a else a.T) (winH' a)
      (if a.axis = Axis.x then a.T else leftW a) Mat.wallMat with
    pos :=
      if a.axis = Axis.x then
        ⟨-halfL a + leftW a / 2, yWinBottom a + winH' a / 2, 0⟩
      else
        ⟨0, yWinBottom a + winH' a / 2, -halfL a + leftW a / 2⟩ }

/-- The box right of the window (source lines 124-137). -/
def rightBox (a : WallArgs) : Box :=
  { makeBox (if a.axis = Axis.x then rightW a else a.T) (winH' a)
      (if a.axis = Axis.x then a.T else rightW a) Mat.wallMat with
    pos :=
      if a.axis = Axis.x then
        ⟨halfL a - rightW a / 2, yWinBottom a + winH' a / 2, 0⟩
      else
        ⟨0, yWinBottom a + winH' a / 2, halfL a - rightW a / 2⟩ }

/-- `glassT = 0.02`. -/
def glassT : ℚ := 1/50

/-- The glass pane (source lines 141-165): thin box near the outward
face, with `castShadow` switched off after creation. -/
def glassBox (a : WallArgs) : Box :=
  { makeBox (if a.axis = Axis.x then winW' a else glassT) (winH' a)
      (if a.axis = Axis.x then glassT else winW' a) Mat.glassMat with
    pos :=
      if a.axis = Axis.x then
        ⟨winCenter a, yWinBottom a + winH' a / 2,
          a.outwardNormal.z * (a.T / 2 - glassT / 2)⟩
      else
        ⟨a.outwardNormal.x * (a.T / 2 - glassT / 2),
          yWinBottom a + winH' a / 2, winCenter a⟩,
    castShadow := false }

/-- `buildWallWithWindow`: each structural segment is added only when its
extent exceeds 0.001; the pane is always added. -/
def buildWallWithWindow (a : WallArgs) : List (Role × Box) :=
  (if lowerH a > 1/1000 then [(Role.lower, lowerBox a)] else []) ++
  (if upperH a > 1/1000 then [(Role.upper, upperBox a)] else []) ++
  (if leftW a > 1/1000 then [(Role.left, leftBox a)] else []) ++
  (if rightW a > 1/1000 then [(Role.right, rightBox a)] else []) ++
  [(Role.pane, glassBox a)]

/-- A per-wall window configuration of `makeHouse` (`w`,`h`,`sill`,`center`). -/
structure WinCfg where
  w : ℚ
  h : ℚ
  sill : ℚ
  center : ℚ
deriving DecidableEq

/-- The configuration object of `makeHouse` with its default values. -/
structure HouseCfg where
  width : ℚ := 4
  depth : ℚ := 6
  height : ℚ := 3
  wallT : ℚ := 3/20
  floorT : ℚ := 3/25
  winEast : WinCfg := ⟨12/5, 6/5, 9/10, 0⟩
  winSouth : WinCfg := ⟨3, 7/5, 7/10, 0⟩
deriving DecidableEq

/-- A windowed wall group: its center (the group position) and children. -/
structure WallNode where
  center : Vec3
  children : List (Role × Box)
deriving DecidableEq

/-- The group returned by `makeHouse`. -/
structure House where
  floor : Box
  ceiling : Box
  west : Box
  north : Box
  east : WallNode
  south : WallNode
deriving DecidableEq

/-- Arguments of the east-wall call (source lines 202-213). -/
def eastArgs (c : HouseCfg) : WallArgs :=
  { axis := Axis.z, L := c.depth, H := c.height, T := c.wallT,
    center := ⟨c.width / 2 - c.wallT / 2, c.height / 2, 0⟩,
    winW := c.winEast.w, winH := c.winEast.h, sill := c.winEast.sill,
    offsetAlong := c.winEast.center, outwardNormal := ⟨1, 0, 0⟩ }

/-- Arguments of the south-wall call (source lines 216-227). -/
def southArgs (c : HouseCfg) : WallArgs :=
  { axis := Axis.x, L := c.width, H := c.height, T := c.wallT,
    center := ⟨0, c.height / 2, c.depth / 2 - c.wallT / 2⟩,
    winW := c.winSouth.w, winH := c.winSouth.h, sill := c.winSouth.sill,
    offsetAlong := c.winSouth.center, outwardNormal := ⟨0, 0, 1⟩ }

/-- `makeHouse`: floor, ceiling, two plain walls, two windowed walls. -/
def makeHouse (c : HouseCfg) : House :=
  { floor :=
      { makeBox (c.width - c.wallT * 2) c.floorT (c.depth - c.wallT * 2)
          Mat.floorMat with pos := ⟨0, c.floorT / 2, 0⟩ }
    ceiling :=
      { makeBox c.width (2/25) c.depth Mat.ceilMat with
        pos := ⟨0, c.height + 1/25, 0⟩ }
    west :=
      { makeBox c.wallT c.height c.depth Mat.wallMat with
        pos := ⟨-c.width / 2 + c.wallT / 2, c.height / 2, 0⟩ }
    north :=
      { makeBox c.width c.height c.wallT Mat.wallMat with
        pos := ⟨0, c.height / 2, -c.depth / 2 + c.wallT / 2⟩ }
    east := ⟨(eastArgs c).center, buildWallWithWindow (eastArgs c)⟩
    south := ⟨(southArgs c).center, buildWallWithWindow (southArgs c)⟩ }

/-- The default configuration (`makeHouse({})`). -/
def defaultCfg : HouseCfg := {}

/-! ### Projection onto the wall's length-by-height face

For the tiling properties, each box of a windowed wall is projected onto
the 2D face spanned by the wall's long axis (first coordinate) and the
vertical axis (second coordinate); thickness is ignored. -/

/-- A closed axis-aligned rectangle `[x1, x2] × [y1, y2]` on a wall face. -/
structure Rect where
  x1 : ℚ
  x2 : ℚ
  y1 : ℚ
  y2 : ℚ
deriving DecidableEq

/-- Signed area of a rectangle. -/
def Rect.area (r : Rect) : ℚ := (r.x2 - r.x1) * (r.y2 - r.y1)

/-- Membership of a point in the closed rectangle. -/
def Rect.mem2 (r : Rect) (p q : ℚ) : Prop :=
  r.x1 ≤ p ∧ p ≤ r.x2 ∧ r.y1 ≤ q ∧ q ≤ r.y2

instance (r : Rect) (p q : ℚ) : Decidable (r.mem2 p q) := by
  unfold Rect.mem2; infer_instance

/-- Two rectangles have interiors that do not overlap (they may touch). -/
def Rect.disj (r s : Rect) : Prop :=
  r.x2 ≤ s.x1 ∨ s.x2 ≤ r.x1 ∨ r.y2 ≤ s.y1 ∨ s.y2 ≤ r.y1

instance (r s : Rect) : Decidable (r.disj s) := by
  unfold Rect.disj; infer_instance

/-- Project a box onto the wall face: the along-axis extent comes from
the box's x-size for an x-axis wall and its z-size for a z-axis wall. -/
def projRect (ax : Axis) (b : Box) : Rect :=
  match ax with
  | Axis.x => ⟨b.pos.x - b.sx / 2, b.pos.x + b.sx / 2,
               b.pos.y - b.sy / 2, b.pos.y + b.sy / 2⟩
  | Axis.z => ⟨b.pos.z - b.sz / 2, b.pos.z + b.sz / 2,
               b.pos.y - b.sy / 2, b.pos.y + b.sy / 2⟩

/-- The projected rectangles of a wall's emitted primitives. -/
def wallRects (a : WallArgs) : List Rect :=
  (buildWallWithWindow a).map (fun rb => projRect a.axis rb.2)

/-- Sum of the projected areas of a wall's emitted primitives. -/
def sumArea (a : WallArgs) : ℚ := ((wallRects a).map Rect.area).sum

/-- The face rectangle of the full lower band (emitted or not). -/
def lowerRect (a : WallArgs) : Rect :=
  ⟨-halfL a, halfL a, yBottom a, yWinBottom a⟩

/-- The face rectangle of the full upper band. -/
def upperRect (a : WallArgs) : Rect :=
  ⟨-halfL a, halfL a, yWinTop a, yTop a⟩

/-- The face rectangle left of the window. -/
def leftRect (a : WallArgs) : Rect :=
  ⟨-halfL a, winLeft a, yWinBottom a, yWinTop a⟩

/-- The face rectangle right of the window. -/
def rightRect (a : WallArgs) : Rect :=
  ⟨winRight a, halfL a, yWinBottom a, yWinTop a⟩

/-- The window aperture rectangle (also the pane's projection). -/
def paneRect (a : WallArgs) : Rect :=
  ⟨winLeft a, winRight a, yWinBottom a, yWinTop a⟩

/-- The roles of the primitives emitted for a windowed wall. -/
def roles (a : WallArgs) : List Role := (buildWallWithWindow a).map Prod.fst

/-- A `WindowSpec` is valid for a wall of length `L` and height `H` when
each clamp operation leaves it unchanged: width within `L - 0.2`, height
within `H - 0.2`, sill between `0` and `H - h - 0.05`. -/
def validWindow (L H : ℚ) (s : WindowSpec) : Prop :=
  s.w ≤ L - 1/5 ∧ s.h ≤ H - 1/5 ∧ 0 ≤ s.sill ∧ s.sill ≤ H - s.h - 1/20

instance (L H : ℚ) (s : WindowSpec) : Decidable (validWindow L H s) := by
  unfold validWindow; infer_instance

/-- A wall call whose window offset pushes the aperture far past the
wall's edge (the offset is never clamped). -/
def wallBigOffset : WallArgs :=
  { axis := Axis.x, L := 4, H := 3, T := 3/20, center := ⟨0, 0, 0⟩,
    winW := 2, winH := 1, sill := 1, offsetAlong := 100,
    outwardNormal := ⟨0, 0, 1⟩ }

/-- A wall call with a centered window exactly as wide as `L - 0.2`. -/
def wallExactMargin : WallArgs :=
  { axis := Axis.x, L := 4, H := 3, T := 3/20, center := ⟨0, 0, 0⟩,
    winW := 19/5, winH := 6/5, sill := 9/10, offsetAlong := 0,
    outwardNormal := ⟨0, 0, 1⟩ }

/-- A wall call with a centered window narrower than `L - 0.4`. -/
def wallNarrowWindow : WallArgs :=
  { axis := Axis.x, L := 4, H := 3, T := 3/20, center := ⟨0, 0, 0⟩,
    winW := 2, winH := 6/5, sill := 9/10, offsetAlong := 0,
    outwardNormal := ⟨0, 0, 1⟩ }

theorem projRect_lowerBox (a : WallArgs) :
    projRect a.axis (lowerBox a) = lowerRect a := by
  cases hax : a.axis <;>
    simp [projRect, lowerBox, makeBox, lowerRect, hax, lowerH, yWinBottom,
      yBottom, halfL, Rect.mk.injEq] <;> ring_nf

theorem projRect_upperBox (a : WallArgs) :
    projRect a.axis (upperBox a) = upperRect a := by
  cases hax : a.axis <;>
    simp [projRect, upperBox, makeBox, upperRect, hax, upperH, yWinTop,
      yTop, halfL, Rect.mk.injEq] <;> ring_nf

theorem projRect_leftBox (a : WallArgs) :
    projRect a.axis (leftBox a) = leftRect a := by
  cases hax : a.axis <;>
    simp [projRect, leftBox, makeBox, leftRect, hax, leftW, winLeft,
      yWinTop, halfL, Rect.mk.injEq] <;> ring_nf <;> simp

theorem projRect_rightBox (a : WallArgs) :
    projRect a.axis (rightBox a) = rightRect a := by
  cases hax : a.axis <;>
    simp [projRect, rightBox, makeBox, rightRect, hax, rightW, winRight,
      yWinTop, halfL, Rect.mk.injEq] <;> ring_nf <;> simp

theorem projRect_glassBox (a : WallArgs) :
    projRect a.axis (glassBox a) = paneRect a := by
  cases hax : a.axis <;>
    simp [projRect, glassBox, makeBox, paneRect, hax, winLeft, winRight,
      winCenter, yWinTop, Rect.mk.injEq] <;> ring_nf

/-! ### Basic facts about the clamped quantities -/

/-- The clamped height leaves at least a 0.2 band of wall. -/
theorem winH'_le_H (a : WallArgs) : winH' a ≤ a.H - 1/5 :=
  min_le_right _ _

/-- The clamped sill is never negative. -/
theorem sill'_nonneg (a : WallArgs) : 0 ≤ sill' a :=
  le_max_left _ _

/-- The clamped sill leaves a 0.05 gap below the ceiling line. -/
theorem sill'_le_bound (a : WallArgs) : sill' a ≤ a.H - winH' a - 1/20 := by
  have h := winH'_le_H a
  refine max_le (by linarith) ?_
  exact min_le_right _ _

/-- The clamped sill written with the clamped height. -/
theorem sill'_eq (a : WallArgs) :
    sill' a = max 0 (min a.sill (a.H - winH' a - 1/20)) := rfl

/-- `lowerH` is the clamped sill. -/
theorem lowerH_eq (a : WallArgs) : lowerH a = sill' a := by
  unfold lowerH yWinBottom; ring

/-- `upperH` in terms of the clamped quantities. -/
theorem upperH_eq (a : WallArgs) : upperH a = a.H - sill' a - winH' a := by
  unfold upperH yTop yWinTop yWinBottom yBottom; ring

/-- The upper band is always at least 0.05 high, so it is always emitted. -/
theorem upperH_ge (a : WallArgs) : 1/20 ≤ upperH a := by
  have h := sill'_le_bound a
  rw [upperH_eq]; linarith

/-- The along-axis extents and the clamped width add up to the length. -/
theorem extents_add (a : WallArgs) : leftW a + rightW a + winW' a = a.L := by
  unfold leftW rightW winLeft winRight winCenter halfL; ring

/-- The clamped width is nonnegative for a nonnegative request on a wall
of length at least 0.2. -/
theorem winW'_nonneg (a : WallArgs) (h1 : 0 ≤ a.winW) (h2 : 1/5 ≤ a.L) :
    0 ≤ winW' a :=
  le_min h1 (by linarith)

/-- The clamped height is nonnegative for a nonnegative request on a wall
of height at least 0.2. -/
theorem winH'_nonneg (a : WallArgs) (h1 : 0 ≤ a.winH) (h2 : 1/5 ≤ a.H) :
    0 ≤ winH' a :=
  le_min h1 (by linarith)

/-! ### Which roles are emitted -/

theorem lower_mem_roles (a : WallArgs) :
    Role.lower ∈ roles a ↔ 1/1000 < lowerH a := by
  unfold roles buildWallWithWindow
  split_ifs <;> simp_all

theorem upper_mem_roles (a : WallArgs) :
    Role.upper ∈ roles a ↔ 1/1000 < upperH a := by
  unfold roles buildWallWithWindow
  split_ifs <;> simp_all

theorem left_mem_roles (a : WallArgs) :
    Role.left ∈ roles a ↔ 1/1000 < leftW a := by
  unfold roles buildWallWithWindow
  split_ifs <;> simp_all

theorem right_mem_roles (a : WallArgs) :
    Role.right ∈ roles a ↔ 1/1000 < rightW a := by
  unfold roles buildWallWithWindow
  split_ifs <;> simp_all

/-- The pane is always emitted. -/
theorem pane_mem_build (a : WallArgs) :
    (Role.pane, glassBox a) ∈ buildWallWithWindow a := by
  unfold buildWallWithWindow
  simp

/-- Every emitted primitive is one of the five boxes. -/
theorem mem_build_cases {a : WallArgs} {rb : Role × Box}
    (h : rb ∈ buildWallWithWindow a) :
    rb = (Role.lower, lowerBox a) ∨ rb = (Role.upper, upperBox a) ∨
    rb = (Role.left, leftBox a) ∨ rb = (Role.right, rightBox a) ∨
    rb = (Role.pane, glassBox a) := by
  unfold buildWallWithWindow at h
  split_ifs at h <;> simp_all <;> tauto

/-- The emitted projected rectangles, segment by segment. -/
theorem wallRects_eq (a : WallArgs) :
    wallRects a =
      (if 1/1000 < lowerH a then [lowerRect a] else []) ++
      (if 1/1000 < upperH a then [upperRect a] else []) ++
      (if 1/1000 < leftW a then [leftRect a] else []) ++
      (if 1/1000 < rightW a then [rightRect a] else []) ++
      [paneRect a] := by
  unfold wallRects buildWallWithWindow
  split_ifs <;>
    simp [projRect_lowerBox, projRect_upperBox, projRect_leftBox,
      projRect_rightBox, projRect_glassBox]

/-! ### Areas, overlap and coverage of the projected rectangles -/

theorem area_lowerRect (a : WallArgs) :
    (lowerRect a).area = a.L * lowerH a := by
  unfold Rect.area lowerRect lowerH halfL; ring

theorem area_upperRect (a : WallArgs) :
    (upperRect a).area = a.L * upperH a := by
  unfold Rect.area upperRect upperH halfL; ring

theorem area_leftRect (a : WallArgs) :
    (leftRect a).area = leftW a * winH' a := by
  unfold Rect.area leftRect leftW yWinTop; ring

theorem area_rightRect (a : WallArgs) :
    (rightRect a).area = rightW a * winH' a := by
  unfold Rect.area rightRect rightW yWinTop; ring

theorem area_paneRect (a : WallArgs) :
    (paneRect a).area = winW' a * winH' a := by
  unfold Rect.area paneRect winLeft winRight yWinTop; ring

/-- The five candidate rectangles tile the full face area exactly. -/
theorem candidate_area_sum (a : WallArgs) :
    (lowerRect a).area + (upperRect a).area + (leftRect a).area +
      (rightRect a).area + (paneRect a).area = a.L * a.H := by
  rw [area_lowerRect, area_upperRect, area_leftRect, area_rightRect,
    area_paneRect, lowerH_eq, upperH_eq]
  linear_combination winH' a * extents_add a

/-- Emitted rectangles with the always-true upper condition discharged. -/
theorem wallRects_eq' (a : WallArgs) :
    wallRects a =
      (if 1/1000 < lowerH a then [lowerRect a] else []) ++
      [upperRect a] ++
      (if 1/1000 < leftW a then [leftRect a] else []) ++
      (if 1/1000 < rightW a then [rightRect a] else []) ++
      [paneRect a] := by
  rw [wallRects_eq,
    if_pos (lt_of_lt_of_le (by norm_num) (upperH_ge a))]

/-- The emitted areas reach `L * H` minus the areas of the omitted
segments, each of which has extent at most the epsilon. -/
theorem sumArea_bounds (a : WallArgs) (hh : 0 ≤ winH' a)
    (hL : 0 ≤ a.L) (hl : 0 ≤ leftW a) (hr : 0 ≤ rightW a) :
    a.L * a.H - 1/1000 * (a.L + 2 * winH' a) ≤ sumArea a ∧
    sumArea a ≤ a.L * a.H := by
  have key : sumArea a = a.L * a.H -
      ((if 1/1000 < lowerH a then 0 else (lowerRect a).area) +
       (if 1/1000 < leftW a then 0 else (leftRect a).area) +
       (if 1/1000 < rightW a then 0 else (rightRect a).area)) := by
    unfold sumArea
    rw [wallRects_eq']
    split_ifs <;> simp [List.sum_append] <;>
      linarith [candidate_area_sum a]
  have d1 : 0 ≤ (if 1/1000 < lowerH a then 0 else (lowerRect a).area) ∧
      (if 1/1000 < lowerH a then 0 else (lowerRect a).area) ≤
        1/1000 * a.L := by
    split_ifs with h
    · constructor <;> [linarith; positivity]
    · rw [area_lowerRect, lowerH_eq]
      have h0 := sill'_nonneg a
      have h1 : sill' a ≤ 1/1000 := by rw [lowerH_eq] at h; linarith
      constructor
      · exact mul_nonneg hL h0
      · nlinarith
  have d3 : 0 ≤ (if 1/1000 < leftW a then 0 else (leftRect a).area) ∧
      (if 1/1000 < leftW a then 0 else (leftRect a).area) ≤
        1/1000 * winH' a := by
    split_ifs with h
    · constructor <;> [linarith; positivity]
    · rw [area_leftRect]
      have h1 : leftW a ≤ 1/1000 := by linarith
      constructor
      · exact mul_nonneg hl hh
      · nlinarith
  have d4 : 0 ≤ (if 1/1000 < rightW a then 0 else (rightRect a).area) ∧
      (if 1/1000 < rightW a then 0 else (rightRect a).area) ≤
        1/1000 * winH' a := by
    split_ifs with h
    · constructor <;> [linarith; positivity]
    · rw [area_rightRect]
      have h1 : rightW a ≤ 1/1000 := by linarith
      constructor
      · exact mul_nonneg hr hh
      · nlinarith
  constructor <;> rw [key] <;>
    linarith [d1.1, d1.2, d3.1, d3.2, d4.1, d4.2]

/-- No two emitted rectangles of a wall overlap with nonzero area. -/
theorem wall_no_overlap (a : WallArgs)
    (hw : 0 ≤ winW' a) (hh : 0 ≤ winH' a) :
    List.Pairwise Rect.disj (wallRects a) := by
  have h1 : yWinBottom a ≤ yWinTop a := by unfold yWinTop; linarith
  have h2 : winLeft a ≤ winRight a := by unfold winLeft winRight; linarith
  have hfull : List.Pairwise Rect.disj
      [lowerRect a, upperRect a, leftRect a, rightRect a, paneRect a] := by
    refine List.Pairwise.cons ?_ (List.Pairwise.cons ?_
      (List.Pairwise.cons ?_ (List.Pairwise.cons ?_
        (List.Pairwise.cons ?_ List.Pairwise.nil))))
    · intro r hr
      simp only [List.mem_cons, List.not_mem_nil, or_false] at hr
      unfold Rect.disj
      rcases hr with rfl | rfl | rfl | rfl
      · exact Or.inr (Or.inr (Or.inl h1))
      · exact Or.inr (Or.inr (Or.inl (le_refl _)))
      · exact Or.inr (Or.inr (Or.inl (le_refl _)))
      · exact Or.inr (Or.inr (Or.inl (le_refl _)))
    · intro r hr
      simp only [List.mem_cons, List.not_mem_nil, or_false] at hr
      unfold Rect.disj
      rcases hr with rfl | rfl | rfl
      · exact Or.inr (Or.inr (Or.inr (le_refl _)))
      · exact Or.inr (Or.inr (Or.inr (le_refl _)))
      · exact Or.inr (Or.inr (Or.inr (le_refl _)))
    · intro r hr
      simp only [List.mem_cons, List.not_mem_nil, or_false] at hr
      unfold Rect.disj
      rcases hr with rfl | rfl
      · exact Or.inl h2
      · exact Or.inl (le_refl _)
    · intro r hr
      simp only [List.mem_cons, List.not_mem_nil, or_false] at hr
      unfold Rect.disj
      rcases hr with rfl
      exact Or.inr (Or.inl (le_refl _))
    · intro r hr
      simp at hr
  have s1 : List.Sublist (if 1/1000 < lowerH a then [lowerRect a] else [])
      [lowerRect a] := by split_ifs <;> simp
  have s2 : List.Sublist (if 1/1000 < upperH a then [upperRect a] else [])
      [upperRect a] := by split_ifs <;> simp
  have s3 : List.Sublist (if 1/1000 < leftW a then [leftRect a] else [])
      [leftRect a] := by split_ifs <;> simp
  have s4 : List.Sublist (if 1/1000 < rightW a then [rightRect a] else [])
      [rightRect a] := by split_ifs <;> simp
  have hsub : List.Sublist (wallRects a)
      [lowerRect a, upperRect a, leftRect a, rightRect a, paneRect a] := by
    rw [wallRects_eq]
    simpa using
      s1.append (s2.append (s3.append (s4.append
        (List.Sublist.refl [paneRect a]))))
  exact hfull.sublist hsub

/-- Every point of the face lies in one of the five candidate
rectangles. -/
theorem wall_coverage (a : WallArgs)
    (hw : 0 ≤ winW' a) (hh : 0 ≤ winH' a)
    (hl : 0 ≤ leftW a) (hr : 0 ≤ rightW a) (p q : ℚ)
    (hp1 : -(a.L/2) ≤ p) (hp2 : p ≤ a.L/2)
    (hq1 : -(a.H/2) ≤ q) (hq2 : q ≤ a.H/2) :
    (lowerRect a).mem2 p q ∨ (upperRect a).mem2 p q ∨
    (leftRect a).mem2 p q ∨ (rightRect a).mem2 p q ∨
    (paneRect a).mem2 p q := by
  have hby : yBottom a = -(a.H/2) := by unfold yBottom; ring
  have hyt : yTop a = a.H/2 := rfl
  have hhalf : halfL a = a.L/2 := rfl
  have hwb : yBottom a ≤ yWinBottom a := by
    have := sill'_nonneg a; unfold yWinBottom; linarith
  have hwt : yWinBottom a ≤ yWinTop a := by unfold yWinTop; linarith
  have htt : yWinTop a ≤ yTop a := by
    have := upperH_ge a; unfold upperH at this; linarith
  have hwl : -halfL a ≤ winLeft a := by unfold leftW at hl; linarith
  have hlr : winLeft a ≤ winRight a := by
    unfold winLeft winRight; linarith
  have hrh : winRight a ≤ halfL a := by unfold rightW at hr; linarith
  simp only [Rect.mem2, lowerRect, upperRect, leftRect, rightRect, paneRect]
  rcases le_total q (yWinBottom a) with hq | hq
  · exact Or.inl ⟨by linarith, by linarith, by linarith, by linarith⟩
  · rcases le_total q (yWinTop a) with hq' | hq'
    · rcases le_total p (winLeft a) with hp | hp
      · exact Or.inr (Or.inr (Or.inl
          ⟨by linarith, by linarith, by linarith, by linarith⟩))
      · rcases le_total p (winRight a) with hp' | hp'
        · exact Or.inr (Or.inr (Or.inr (Or.inr
            ⟨by linarith, by linarith, by linarith, by linarith⟩)))
        · exact Or.inr (Or.inr (Or.inr (Or.inl
            ⟨by linarith, by linarith, by linarith, by linarith⟩)))
    · exact Or.inr (Or.inl
        ⟨by linarith, by linarith, by linarith, by linarith⟩)

theorem lowerRect_mem_of (a : WallArgs) (h : 1/1000 < lowerH a) :
    lowerRect a ∈ wallRects a := by
  rw [wallRects_eq, if_pos h]; simp

theorem upperRect_mem (a : WallArgs) : upperRect a ∈ wallRects a := by
  rw [wallRects_eq']; simp

theorem leftRect_mem_of (a : WallArgs) (h : 1/1000 < leftW a) :
    leftRect a ∈ wallRects a := by
  rw [wallRects_eq, if_pos h]; simp

theorem rightRect_mem_of (a : WallArgs) (h : 1/1000 < rightW a) :
    rightRect a ∈ wallRects a := by
  rw [wallRects_eq, if_pos h]; simp

theorem paneRect_mem (a : WallArgs) : paneRect a ∈ wallRects a := by
  rw [wallRects_eq]; simp

/-! ### Claim theorems -/

/-- C1 counterexample: with the along offset far past the wall edge
(nothing clamps it), the emitted projected areas plus the aperture do not
sum to `L * H` at all: the left segment grows past the face. -/
theorem wall_tiling_counterexample :
    sumArea wallBigOffset ≠ wallBigOffset.L * wallBigOffset.H := by
  norm_num [sumArea, wallRects, buildWallWithWindow, lowerBox, upperBox,
    leftBox, rightBox, glassBox, makeBox, lowerH, upperH, leftW, rightW,
    winLeft, winRight, winCenter, halfL, yBottom, yTop, yWinBottom,
    yWinTop, sill', winH', winW', wclamp, clampWindow, glassT, projRect,
    Rect.area, wallBigOffset, min_def, max_def]

/-- C1 amended: for a wall call with nonnegative window request, wall
dimensions of at least the 0.2 margin, and whose clamped window fits
within the wall along its length (`leftW ≥ 0` and `rightW ≥ 0`), the
produced segments tile the `L × H` face up to the omission epsilon:
the five candidate areas sum exactly to `L * H`; the emitted areas sum
to `L * H` up to an omission defect of at most `ε (L + 2 winH')`; no two
emitted rectangles overlap with nonzero area; and every face point lies
in an emitted rectangle or in an omitted strip of extent at most ε. -/
theorem wall_tiling (a : WallArgs)
    (h1 : 0 ≤ a.winW) (h2 : 1/5 ≤ a.L) (h3 : 0 ≤ a.winH) (h4 : 1/5 ≤ a.H)
    (h5 : 0 ≤ leftW a) (h6 : 0 ≤ rightW a) :
    ((lowerRect a).area + (upperRect a).area + (leftRect a).area +
      (rightRect a).area + (paneRect a).area = a.L * a.H) ∧
    (a.L * a.H - 1/1000 * (a.L + 2 * winH' a) ≤ sumArea a ∧
      sumArea a ≤ a.L * a.H) ∧
    List.Pairwise Rect.disj (wallRects a) ∧
    (∀ p q : ℚ, -(a.L/2) ≤ p → p ≤ a.L/2 → -(a.H/2) ≤ q → q ≤ a.H/2 →
      (∃ r ∈ wallRects a, r.mem2 p q) ∨
      (lowerH a ≤ 1/1000 ∧ (lowerRect a).mem2 p q) ∨
      (leftW a ≤ 1/1000 ∧ (leftRect a).mem2 p q) ∨
      (rightW a ≤ 1/1000 ∧ (rightRect a).mem2 p q)) := by
  have hw := winW'_nonneg a h1 h2
  have hh := winH'_nonneg a h3 h4
  have hL0 : (0:ℚ) ≤ a.L := by linarith
  refine ⟨candidate_area_sum a, sumArea_bounds a hh hL0 h5 h6,
    wall_no_overlap a hw hh, ?_⟩
  intro p q hp1 hp2 hq1 hq2
  rcases wall_coverage a hw hh h5 h6 p q hp1 hp2 hq1 hq2 with
    h | h | h | h | h
  · by_cases hc : 1/1000 < lowerH a
    · exact Or.inl ⟨lowerRect a, lowerRect_mem_of a hc, h⟩
    · exact Or.inr (Or.inl ⟨le_of_not_lt hc, h⟩)
  · exact Or.inl ⟨upperRect a, upperRect_mem a, h⟩
  · by_cases hc : 1/1000 < leftW a
    · exact Or.inl ⟨leftRect a, leftRect_mem_of a hc, h⟩
    · exact Or.inr (Or.inr (Or.inl ⟨le_of_not_lt hc, h⟩))
  · by_cases hc : 1/1000 < rightW a
    · exact Or.inl ⟨rightRect a, rightRect_mem_of a hc, h⟩
    · exact Or.inr (Or.inr (Or.inr ⟨le_of_not_lt hc, h⟩))
  · exact Or.inl ⟨paneRect a, paneRect_mem a, h⟩

/-- Witness for C1 at the default south wall (4 × 3 wall, 3-wide
centered window). -/
theorem wall_tiling_witness :
    (0 ≤ (southArgs defaultCfg).winW ∧ 1/5 ≤ (southArgs defaultCfg).L ∧
     0 ≤ (southArgs defaultCfg).winH ∧ 1/5 ≤ (southArgs defaultCfg).H ∧
     0 ≤ leftW (southArgs defaultCfg) ∧
     0 ≤ rightW (southArgs defaultCfg)) ∧
    ((lowerRect (southArgs defaultCfg)).area +
      (upperRect (southArgs defaultCfg)).area +
      (leftRect (southArgs defaultCfg)).area +
      (rightRect (southArgs defaultCfg)).area +
      (paneRect (southArgs defaultCfg)).area =
        (southArgs defaultCfg).L * (southArgs defaultCfg).H) ∧
    ((southArgs defaultCfg).L * (southArgs defaultCfg).H -
      1/1000 * ((southArgs defaultCfg).L +
        2 * winH' (southArgs defaultCfg)) ≤
        sumArea (southArgs defaultCfg) ∧
      sumArea (southArgs defaultCfg) ≤
        (southArgs defaultCfg).L * (southArgs defaultCfg).H) ∧
    List.Pairwise Rect.disj (wallRects (southArgs defaultCfg)) ∧
    (∀ p q : ℚ, -((southArgs defaultCfg).L/2) ≤ p →
      p ≤ (southArgs defaultCfg).L/2 →
      -((southArgs defaultCfg).H/2) ≤ q → q ≤ (southArgs defaultCfg).H/2 →
      (∃ r ∈ wallRects (southArgs defaultCfg), r.mem2 p q) ∨
      (lowerH (southArgs defaultCfg) ≤ 1/1000 ∧
        (lowerRect (southArgs defaultCfg)).mem2 p q) ∨
      (leftW (southArgs defaultCfg) ≤ 1/1000 ∧
        (leftRect (southArgs defaultCfg)).mem2 p q) ∨
      (rightW (southArgs defaultCfg) ≤ 1/1000 ∧
        (rightRect (southArgs defaultCfg)).mem2 p q)) := by
  have hargs : (0 ≤ (southArgs defaultCfg).winW ∧
      1/5 ≤ (southArgs defaultCfg).L ∧
      0 ≤ (southArgs defaultCfg).winH ∧ 1/5 ≤ (southArgs defaultCfg).H ∧
      0 ≤ leftW (southArgs defaultCfg) ∧
      0 ≤ rightW (southArgs defaultCfg)) := by
    norm_num [southArgs, defaultCfg, leftW, rightW, winLeft, winRight,
      winCenter, halfL, winW', wclamp, clampWindow, min_def]
  exact ⟨hargs, wall_tiling (southArgs defaultCfg) hargs.1 hargs.2.1
    hargs.2.2.1 hargs.2.2.2.1 hargs.2.2.2.2.1 hargs.2.2.2.2.2⟩

/-- C2: for every input to `buildWallWithWindow` the window parameters are
clamped exactly as `winW' = min(winW, L - 0.2)`,
`winH' = min(winH, H - 0.2)`,
`sill' = max(0, min(sill, H - winH' - 0.05))`; the function is total, so
no input is ever rejected. -/
theorem clamp_formula (a : WallArgs) :
    winW' a = min a.winW (a.L - 1/5) ∧
    winH' a = min a.winH (a.H - 1/5) ∧
    sill' a = max 0 (min a.sill (a.H - winH' a - 1/20)) :=
  ⟨rfl, rfl, rfl⟩

/-- C3: after clamping (for positive wall dimensions) the sill is
nonnegative, sill plus window height stays within the wall height, and
the window width stays within the wall length. -/
theorem clamp_invariants (L H : ℚ) (s : WindowSpec)
    (_hL : 0 < L) (_hH : 0 < H) :
    0 ≤ (clampWindow L H s).sill ∧
    (clampWindow L H s).sill + (clampWindow L H s).h ≤ H ∧
    (clampWindow L H s).w ≤ L := by
  have hh : (clampWindow L H s).h ≤ H - 1/5 := min_le_right _ _
  have hs : (clampWindow L H s).sill ≤ H - (clampWindow L H s).h - 1/20 := by
    refine max_le (by linarith) ?_
    exact min_le_right _ _
  refine ⟨le_max_left _ _, by linarith, ?_⟩
  have hw : (clampWindow L H s).w ≤ L - 1/5 := min_le_right _ _
  linarith

/-- Witness for C3 at the default east-window request on the east wall. -/
theorem clamp_invariants_witness :
    (0:ℚ) < 6 ∧ (0:ℚ) < 3 ∧
    (0 ≤ (clampWindow 6 3 ⟨12/5, 6/5, 9/10⟩).sill ∧
     (clampWindow 6 3 ⟨12/5, 6/5, 9/10⟩).sill +
       (clampWindow 6 3 ⟨12/5, 6/5, 9/10⟩).h ≤ 3 ∧
     (clampWindow 6 3 ⟨12/5, 6/5, 9/10⟩).w ≤ 6) :=
  ⟨by norm_num, by norm_num,
    clamp_invariants 6 3 ⟨12/5, 6/5, 9/10⟩ (by norm_num) (by norm_num)⟩

/-- C8: re-clamping a clamped window yields the same window, and clamping
an already-valid window is a no-op. -/
theorem clamp_idempotent (L H : ℚ) (s : WindowSpec) :
    clampWindow L H (clampWindow L H s) = clampWindow L H s ∧
    (validWindow L H s → clampWindow L H s = s) := by
  constructor
  · have hh : min (min s.h (H - 1/5)) (H - 1/5) = min s.h (H - 1/5) := by
      rw [min_assoc, min_self]
    have hX : (3:ℚ)/20 ≤ H - min s.h (H - 1/5) - 1/20 := by
      have := min_le_right s.h (H - 1/5); linarith
    have hsle : max 0 (min s.sill (H - min s.h (H - 1/5) - 1/20)) ≤
        H - min s.h (H - 1/5) - 1/20 :=
      max_le (by linarith) (min_le_right _ _)
    have hs0 : (0:ℚ) ≤ max 0 (min s.sill (H - min s.h (H - 1/5) - 1/20)) :=
      le_max_left _ _
    show WindowSpec.mk _ _ _ = WindowSpec.mk _ _ _
    simp only [clampWindow, WindowSpec.mk.injEq]
    refine ⟨by rw [min_assoc, min_self], hh, ?_⟩
    rw [hh, min_eq_left hsle, max_eq_right hs0]
  · rintro ⟨h1, h2, h3, h4⟩
    show WindowSpec.mk _ _ _ = WindowSpec.mk _ _ _
    simp only [clampWindow, WindowSpec.mk.injEq]
    refine ⟨min_eq_left h1, min_eq_left h2, ?_⟩
    rw [min_eq_left h2, min_eq_left (by linarith : s.sill ≤ H - s.h - 1/20),
      max_eq_right h3]

/-- Witness for C8 at a concrete already-valid window. -/
theorem clamp_idempotent_witness :
    validWindow 4 3 ⟨2, 1, 1⟩ ∧
    clampWindow 4 3 (clampWindow 4 3 ⟨2, 1, 1⟩) = clampWindow 4 3 ⟨2, 1, 1⟩ ∧
    clampWindow 4 3 (⟨2, 1, 1⟩ : WindowSpec) = ⟨2, 1, 1⟩ :=
  ⟨by norm_num [validWindow],
    (clamp_idempotent 4 3 ⟨2, 1, 1⟩).1,
    (clamp_idempotent 4 3 ⟨2, 1, 1⟩).2 (by norm_num [validWindow])⟩

/-- C4: each structural segment (lower, upper, left, right) is emitted if
and only if its computed extent strictly exceeds the omission epsilon
0.001; an extent at or below 0.001 is never emitted. -/
theorem segment_emission_iff (a : WallArgs) :
    (Role.lower ∈ roles a ↔ 1/1000 < lowerH a) ∧
    (Role.upper ∈ roles a ↔ 1/1000 < upperH a) ∧
    (Role.left ∈ roles a ↔ 1/1000 < leftW a) ∧
    (Role.right ∈ roles a ↔ 1/1000 < rightW a) :=
  ⟨lower_mem_roles a, upper_mem_roles a, left_mem_roles a, right_mem_roles a⟩

/-- C10: the clamping step never touches the along-axis offset
(`winCenter = offsetAlong` verbatim), and nothing constrains the window's
along-axis span to the wall: an offset beyond `L/2` puts the aperture's
right edge past the wall's edge. -/
theorem offset_unclamped (a : WallArgs) :
    winCenter a = a.offsetAlong ∧
    (0 ≤ a.winW → 1/5 ≤ a.L → a.L / 2 < a.offsetAlong →
      halfL a < winRight a) := by
  refine ⟨rfl, fun h1 h2 h3 => ?_⟩
  have hw := winW'_nonneg a h1 h2
  unfold winRight winCenter halfL
  linarith

/-- C5 counterexample: with the default configuration the floor's top
face sits at `y = floorT = 0.12`, not at `y = 0` as the claim states. -/
theorem floor_top_counterexample :
    ¬((makeHouse defaultCfg).floor.pos.y +
        (makeHouse defaultCfg).floor.sy / 2 = 0) := by
  norm_num [makeHouse, makeBox, defaultCfg]

/-- C5 amended: the floor is a box of size
`(width - 2 wallT, floorT, depth - 2 wallT)` whose BOTTOM face sits at
`y = 0` (top face at `y = floorT`), inset from the walls by exactly one
wall thickness on each side. -/
theorem floor_geometry (c : HouseCfg) :
    (makeHouse c).floor.sx = c.width - 2 * c.wallT ∧
    (makeHouse c).floor.sy = c.floorT ∧
    (makeHouse c).floor.sz = c.depth - 2 * c.wallT ∧
    (makeHouse c).floor.pos.y - (makeHouse c).floor.sy / 2 = 0 ∧
    (makeHouse c).floor.pos.x - (makeHouse c).floor.sx / 2 =
      -(c.width / 2) + c.wallT ∧
    (makeHouse c).floor.pos.x + (makeHouse c).floor.sx / 2 =
      c.width / 2 - c.wallT ∧
    (makeHouse c).floor.pos.z - (makeHouse c).floor.sz / 2 =
      -(c.depth / 2) + c.wallT ∧
    (makeHouse c).floor.pos.z + (makeHouse c).floor.sz / 2 =
      c.depth / 2 - c.wallT := by
  refine ⟨?_, rfl, ?_, ?_, ?_, ?_, ?_, ?_⟩ <;>
    simp [makeHouse, makeBox] <;> ring

/-- C6 counterexample: a centered window exactly as wide as `L - 0.2`
produces a Left segment whose extent 0.1 is far above the omission
epsilon, contradicting the claim that no (or only `≤ ε`) Left/Right
segments appear. -/
theorem margin_window_counterexample :
    Role.left ∈ roles wallExactMargin ∧ leftW wallExactMargin = 1/10 ∧
    ¬(leftW wallExactMargin ≤ 1/1000) := by
  have hl : leftW wallExactMargin = 1/10 := by
    norm_num [leftW, winLeft, winCenter, halfL, winW', wclamp, clampWindow,
      wallExactMargin]
  exact ⟨(left_mem_roles wallExactMargin).2 (by rw [hl]; norm_num), hl,
    by rw [hl]; norm_num⟩

/-- C6 amended: a centered window exactly as wide as `L - 0.2` produces
Left and Right segments of extent exactly 0.1 (half the margin) on each
side; a centered window narrower than `L - 0.4`, with a sill request
above the epsilon, produces all four structural segments. -/
theorem margin_window_segments (a : WallArgs) :
    (a.offsetAlong = 0 → a.winW = a.L - 1/5 →
      leftW a = 1/10 ∧ rightW a = 1/10 ∧
      Role.left ∈ roles a ∧ Role.right ∈ roles a) ∧
    (a.offsetAlong = 0 → a.winW < a.L - 2/5 → 1/1000 < a.sill →
      Role.lower ∈ roles a ∧ Role.upper ∈ roles a ∧
      Role.left ∈ roles a ∧ Role.right ∈ roles a) := by
  constructor
  · intro hoff hw
    have hW : winW' a = a.L - 1/5 := by
      unfold winW' wclamp clampWindow
      simp [hw]
    have hl : leftW a = 1/10 := by
      unfold leftW winLeft winCenter halfL
      rw [hW, hoff]; ring
    have hr : rightW a = 1/10 := by
      unfold rightW winRight winCenter halfL
      rw [hW, hoff]; ring
    exact ⟨hl, hr, (left_mem_roles a).2 (by rw [hl]; norm_num),
      (right_mem_roles a).2 (by rw [hr]; norm_num)⟩
  · intro hoff hw hs
    have hW : winW' a = a.winW := min_eq_left (by linarith)
    have hX : (3:ℚ)/20 ≤ a.H - winH' a - 1/20 := by
      have := winH'_le_H a; linarith
    have hlower : 1/1000 < lowerH a := by
      rw [lowerH_eq, sill'_eq]
      exact lt_of_lt_of_le (lt_min hs (by linarith)) (le_max_right _ _)
    have hleft : 1/1000 < leftW a := by
      unfold leftW winLeft winCenter halfL
      rw [hW, hoff]; linarith
    have hright : 1/1000 < rightW a := by
      unfold rightW winRight winCenter halfL
      rw [hW, hoff]; linarith
    exact ⟨(lower_mem_roles a).2 hlower,
      (upper_mem_roles a).2 (by have := upperH_ge a; linarith),
      (left_mem_roles a).2 hleft, (right_mem_roles a).2 hright⟩

/-- Witness for C6 at the exact-margin wall and the narrow-window wall. -/
theorem margin_window_segments_witness :
    (leftW wallExactMargin = 1/10 ∧ rightW wallExactMargin = 1/10 ∧
     Role.left ∈ roles wallExactMargin ∧
     Role.right ∈ roles wallExactMargin) ∧
    (Role.lower ∈ roles wallNarrowWindow ∧
     Role.upper ∈ roles wallNarrowWindow ∧
     Role.left ∈ roles wallNarrowWindow ∧
     Role.right ∈ roles wallNarrowWindow) :=
  ⟨(margin_window_segments wallExactMargin).1 rfl
      (by norm_num [wallExactMargin]),
   (margin_window_segments wallNarrowWindow).2 rfl
      (by norm_num [wallNarrowWindow]) (by norm_num [wallNarrowWindow])⟩

/-- C7: the pane is always emitted; its along-axis extent is the clamped
width, its height the clamped height, its thickness the constant 0.02;
it is centered at the (unclamped) along offset, vertically at
`yWinBottom + winH'/2`, offset along the thickness axis by
`outwardNormal * (T/2 - 0.02/2)`, with the along and thickness box
dimensions swapped according to the wall's axis. -/
theorem pane_geometry (a : WallArgs) :
    (Role.pane, glassBox a) ∈ buildWallWithWindow a ∧
    winCenter a = a.offsetAlong ∧
    glassBox a =
      (match a.axis with
       | Axis.x =>
         { sx := winW' a, sy := winH' a, sz := glassT,
           pos := ⟨a.offsetAlong, yWinBottom a + winH' a / 2,
             a.outwardNormal.z * (a.T / 2 - glassT / 2)⟩,
           mat := Mat.glassMat, castShadow := false, receiveShadow := true }
       | Axis.z =>
         { sx := glassT, sy := winH' a, sz := winW' a,
           pos := ⟨a.outwardNormal.x * (a.T / 2 - glassT / 2),
             yWinBottom a + winH' a / 2, a.offsetAlong⟩,
           mat := Mat.glassMat, castShadow := false,
           receiveShadow := true }) := by
  refine ⟨pane_mem_build a, rfl, ?_⟩
  cases hax : a.axis <;> simp [glassBox, makeBox, winCenter, hax]

/-- C9: in the assembled house the pane never casts a shadow, while every
structural wall segment and every plain wall box has both shadow flags
set like an opaque solid. -/
theorem shadow_flags (c : HouseCfg) :
    (makeHouse c).west.castShadow = true ∧
    (makeHouse c).west.receiveShadow = true ∧
    (makeHouse c).north.castShadow = true ∧
    (makeHouse c).north.receiveShadow = true ∧
    (∀ rb ∈ (makeHouse c).east.children ++ (makeHouse c).south.children,
      (rb.1 = Role.pane → rb.2.castShadow = false) ∧
      (rb.1 ≠ Role.pane →
        rb.2.castShadow = true ∧ rb.2.receiveShadow = true)) := by
  refine ⟨rfl, rfl, rfl, rfl, ?_⟩
  intro rb hrb
  have h : rb ∈ buildWallWithWindow (eastArgs c) ∨
      rb ∈ buildWallWithWindow (southArgs c) := by
    simpa [makeHouse] using List.mem_append.mp hrb
  rcases h with h | h <;>
    rcases mem_build_cases h with rfl | rfl | rfl | rfl | rfl <;>
    simp [lowerBox, upperBox, leftBox, rightBox, glassBox, makeBox]

/-- Witness for C9 at the default configuration and the east pane. -/
theorem shadow_flags_witness :
    (makeHouse defaultCfg).west.castShadow = true ∧
    (glassBox (eastArgs defaultCfg)).castShadow = false :=
  ⟨(shadow_flags defaultCfg).1,
   ((shadow_flags defaultCfg).2.2.2.2
      (Role.pane, glassBox (eastArgs defaultCfg))
      (List.mem_append_left _ (pane_mem_build (eastArgs defaultCfg)))).1
     rfl⟩

/-- Witness for C10 at the big-offset wall call. -/
theorem offset_unclamped_witness :
    winCenter wallBigOffset = wallBigOffset.offsetAlong ∧
    halfL wallBigOffset < winRight wallBigOffset :=
  ⟨(offset_unclamped wallBigOffset).1,
    (offset_unclamped wallBigOffset).2 (by norm_num [wallBigOffset])
      (by norm_num [wallBigOffset]) (by norm_num [wallBigOffset])⟩

end SolarSim
